import Mathlib

set_option maxRecDepth 4096

/-!
Shallow embedding of the `sqlog` instrumentation layer (Go):
a capability-preserving proxy around a `database/sql/driver` driver,
plus the structured event logger driving it.

Modelling conventions:
* `time.Time` is a `Nat` tick count; `0` is the zero value `time.Time{}`
  (`IsZero`), and operations receive their entry time and the current time
  explicitly instead of calling `time.Now()`.
* `slog` severities are `Int`s with the standard slog numeric values.
* Go errors are the inductive `Err`; `driver.ErrSkip` is the constructor
  `Err.errSkip`, and `errors.Is(err, driver.ErrSkip)` is `Err.isErrSkip`.
* A Go optional interface (capability) on a wrapped real object is an
  `Option` function field; a failed type assertion yields `none`.
* Calling a method on the nil interface obtained from a failed type
  assertion panics in Go; this outcome is the constructor `Outcome.nilPanic`.
* Each proxy operation returns its outcome, the list of calls it made on
  the wrapped real object, and the log record it emitted (`none` when the
  logger suppressed the event or no sink is configured).
-/

namespace Sqlog

/-- Go `time.Time` as a tick count; `0` models the zero value `time.Time{}`. -/
abbrev Time := Nat

/-- slog severity level (numeric, as in `slog.Level`). -/
abbrev Level := Int

def LevelDebug : Level := -4
def LevelInfo : Level := 0
def LevelWarn : Level := 4
def LevelError : Level := 8

/-- Go error values reaching the logger or returned by driver calls. -/
inductive Err where
  /-- `driver.ErrSkip`: the "not implemented, use the generic fallback" sentinel. -/
  | errSkip : Err
  /-- any other error, carried by message. -/
  | other : String → Err
deriving DecidableEq, Repr

/-- `errors.Is(err, driver.ErrSkip)`. -/
def Err.isErrSkip : Err → Bool
  | .errSkip => true
  | .other _ => false

/-- `ctx.Err()` for a canceled context: `context.Canceled`. -/
def contextCanceled : Err := .other "context canceled"

/-- `driver.Value`: opaque argument values, modelled as integers. -/
abbrev Value := Int

/-- `driver.NamedValue`. -/
structure NamedValue where
  Name : String
  Ordinal : Nat
  Value : Value
deriving DecidableEq, Repr

/-- A structured log attribute (`slog.Attr`), by constructor kind. -/
inductive Attr where
  | str (key val : String)
  | duration (key : String) (val : Nat)
  | anyErr (key : String) (e : Err)
  | anyArgs (key : String) (args : List Value)
  | bool (key : String) (b : Bool)
deriving DecidableEq, Repr

/-- `internal.logQuery`. -/
def logQuery (query : String) : Attr := .str "query" query

/-- `internal.logArgs` on a `[]driver.Value` argument. -/
def logArgsValues (args : List Value) : Attr := .anyArgs "args" args

/-- `internal.logArgs` on a `[]driver.NamedValue` argument:
the values are extracted in order. -/
def logArgsNamed (args : List NamedValue) : Attr :=
  .anyArgs "args" (args.map NamedValue.Value)

/-- `internal.namedValueToValue` (copied in the source from the stdlib's
ctxutil.go): extracts the values, failing on the first named parameter. -/
def namedValueToValue : List NamedValue → Except Err (List Value)
  | [] => .ok []
  | param :: rest =>
    if param.Name.length > 0 then
      .error (.other "sql: driver does not support the use of Named Parameters")
    else
      match namedValueToValue rest with
      | .error e => .error e
      | .ok vs => .ok (param.Value :: vs)

/-- One record emitted to the sink by `slog.Logger.LogAttrs`. -/
structure Record where
  level : Level
  msg : String
  attrs : List Attr
deriving DecidableEq, Repr

/-- `internal.Logger`: the embedded `*slog.Logger` is modelled by whether a
sink is configured (`hasSink`, i.e. `l.Logger != nil`) together with the
attribute set the sink has accumulated through `With` (`sinkAttrs`). -/
structure Logger where
  hasSink : Bool
  sinkAttrs : List Attr
  BaseLevel : Level
  BasePrefix : String
  StmtPrefix : String
  TxPrefix : String
  WithDuration : Bool
  WarnErrSkip : Bool
deriving DecidableEq, Repr

/-- `internal.Logger.Log`, with the clock passed explicitly:
`started` is the Go `started time.Time` argument and `now` the instant
`time.Since` is evaluated. Returns the emitted record, or `none` when the
call is a no-op (nil sink) or the event is suppressed (`ErrSkip` without
`WarnErrSkip`). -/
def Logger.Log (l : Logger) (level : Level) (msg : String)
    (started now : Time) (err : Option Err) (attrs : List Attr) : Option Record :=
  if l.hasSink = false then none
  else
    let attrs1 :=
      if l.WithDuration && !(started == 0) then
        attrs ++ [Attr.duration "duration" (now - started)]
      else attrs
    let level1 := l.BaseLevel + level
    match err with
    | none => some ⟨level1, l.BasePrefix ++ msg, l.sinkAttrs ++ attrs1⟩
    | some e =>
      if e.isErrSkip then
        if !l.WarnErrSkip then none
        else
          some ⟨LevelWarn, l.BasePrefix ++ msg,
            l.sinkAttrs ++ (attrs1 ++ [Attr.anyErr "error" e])⟩
      else
        some ⟨LevelError, l.BasePrefix ++ msg,
          l.sinkAttrs ++ (attrs1 ++ [Attr.anyErr "error" e])⟩

/-- `internal.Logger.With`: value receiver; the embedded sink accumulates
the new attributes, every configuration field is carried over. -/
def Logger.With (l : Logger) (attrs : List Attr) : Logger :=
  { l with sinkAttrs := l.sinkAttrs ++ attrs }

/-! ## The correlation-ID generator (`internal.NewUID`) -/

def defaultUIDLen : Nat := 8

/-- `defaultUIDCharlist`: the 62-symbol alphabet, as a character list. -/
def defaultUIDCharlist : List Char :=
  "0123456789abcdefghijklmnopqrstuvwxyzABCDEFGHIJKLMNOPQRSTUVWXYZ".toList

/-- The index the generator computes for one random byte:
`uid[i] & byte(len(defaultUIDCharlist)-1)`. -/
def uidIndex (b : Nat) : Nat := b &&& (defaultUIDCharlist.length - 1)

/-- `internal.NewUID`, with the random source's bytes passed explicitly.
Each byte is replaced by the alphabet character at its masked index
(the index is proven in bounds below, so the `getD` default is never used). -/
def NewUID (bytes : List Nat) : String :=
  String.mk (bytes.map fun b => defaultUIDCharlist.getD (uidIndex b) 'A')

/-- `internal.NewUID` including the `rand.Read` failure branch: a failing
random source panics (fatally), modelled as `none`. -/
def NewUIDTotal : Except Err (List Nat) → Option String
  | .error _ => none
  | .ok bytes => some (NewUID bytes)

/-! ## The wrapped real driver objects -/

/-- A `context.Context`, as far as this layer inspects it:
whether `ctx.Done()` is non-nil, and whether that channel is ready
(the context is canceled or timed out). -/
structure Ctx where
  hasDone : Bool
  canceled : Bool
deriving DecidableEq, Repr

/-- `ctx.Err()` as observed on a canceled context. -/
def Ctx.errVal (_ : Ctx) : Err := contextCanceled

/-- `driver.TxOptions`; `driver.IsolationLevel(sql.LevelDefault) = 0`. -/
structure TxOptions where
  Isolation : Nat
  ReadOnly : Bool
deriving DecidableEq, Repr

/-- Opaque handles returned by the real driver. -/
abbrev RResult := Nat
abbrev RRows := Nat
abbrev RTx := Nat

/-- A wrapped real prepared statement: the mandatory `driver.Stmt` methods
plus one `Option` field per optional capability. -/
structure RealStmt where
  closeRes : Option Err
  execRes : List Value → Except Err RResult
  queryRes : List Value → Except Err RRows
  stmtExecContext : Option (Ctx → List NamedValue → Except Err RResult)
  stmtQueryContext : Option (Ctx → List NamedValue → Except Err RRows)

/-- A wrapped real connection: the mandatory `driver.Conn` methods plus one
`Option` field per optional capability (a `none` field is a failed type
assertion on the real connection). Real methods are modelled as pure
result tables; the rollback of a real transaction always "runs". -/
structure RealConn where
  prepareRes : String → Except Err RealStmt
  closeRes : Option Err
  beginRes : Except Err RTx
  pinger : Option (Ctx → Option Err)
  execer : Option (String → List Value → Except Err RResult)
  execerContext : Option (Ctx → String → List NamedValue → Except Err RResult)
  queryer : Option (String → List Value → Except Err RRows)
  queryerContext : Option (Ctx → String → List NamedValue → Except Err RRows)
  connPrepareContext : Option (Ctx → String → Except Err RealStmt)
  connBeginTx : Option (Ctx → TxOptions → Except Err RTx)
  sessionResetter : Option (Ctx → Option Err)
  namedValueChecker : Option (NamedValue → Option Err)

/-- The calls a proxy operation performs on its wrapped real objects,
in order. -/
inductive RealCall where
  | openCall (name : String)
  | pingCall (ctx : Ctx)
  | execCall (query : String) (args : List Value)
  | execContextCall (ctx : Ctx) (query : String) (args : List NamedValue)
  | queryCall (query : String) (args : List Value)
  | queryContextCall (ctx : Ctx) (query : String) (args : List NamedValue)
  | prepareCall (query : String)
  | prepareContextCall (ctx : Ctx) (query : String)
  | beginCall
  | connBeginTxCall (ctx : Ctx) (opts : TxOptions)
  | rollbackCall
  | closeCall
deriving DecidableEq, Repr

/-- The outcome a proxy operation hands back to its caller. -/
inductive Outcome (α : Type) where
  | ok (a : α)
  /-- a non-nil error return. -/
  | err (e : Err)
  /-- a method call on the nil interface left by a failed type assertion:
  a runtime panic in Go. -/
  | nilPanic
deriving DecidableEq, Repr

/-- What one proxy operation produced: the caller-visible outcome, the
calls made on the wrapped real objects, and the emitted log record. -/
structure OpResult (α : Type) where
  out : Outcome α
  calls : List RealCall
  event : Option Record

/-! ## The connection proxy (`internal.Conn`) -/

/-- `internal.Stmt`: the wrapped real statement, the query text, and the
scoped logger (declared before `Conn`, whose prepare operations build it). -/
structure Stmt where
  stmt : RealStmt
  query : String
  logger : Logger

/-- `internal.Conn`: the wrapped real connection, the proxy's creation
time (`started`), and its scoped logger. -/
structure Conn where
  conn : RealConn
  started : Time
  logger : Logger

/-- `internal.NewConn`, with `time.Now()` passed explicitly. -/
def NewConn (conn : RealConn) (logger : Logger) (now : Time) : Conn :=
  ⟨conn, now, logger⟩

/-- `Conn.Ping`. The source inverts the capability check
(`if pinger, ok := c.conn.(driver.Pinger); !ok { return pinger.Ping(ctx) }`):
when the real connection lacks `driver.Pinger` the nil `pinger` is called
(a panic); when it implements `driver.Pinger` the method body falls through
to `return nil` without touching the real connection. The deferred log
still runs in both branches, with `err` never assigned (nil). -/
def Conn.Ping (c : Conn) (_ctx : Ctx) (entry now : Time) : OpResult Unit :=
  let evt := fun (err : Option Err) => c.logger.Log LevelDebug "ping" entry now err []
  match c.conn.pinger with
  | none => ⟨.nilPanic, [], evt none⟩
  | some _ => ⟨.ok (), [], evt none⟩

/-- `Conn.Exec`. Same inverted check as `Ping`
(`if execer, ok := c.conn.(driver.Execer); !ok { return execer.Exec(...) }`):
lacking `driver.Execer` panics on the nil interface; implementing it falls
through to `return nil, driver.ErrSkip` without invoking the real `Exec`. -/
def Conn.Exec (c : Conn) (query : String) (args : List Value)
    (entry now : Time) : OpResult RResult :=
  let evt := fun (err : Option Err) =>
    c.logger.Log LevelInfo "exec" entry now err [logQuery query, logArgsValues args]
  match c.conn.execer with
  | none => ⟨.nilPanic, [], evt none⟩
  | some _ => ⟨.err .errSkip, [], evt (some .errSkip)⟩

/-- `Conn.ExecContext`. Same inverted check as `Exec`, against
`driver.ExecerContext`. -/
def Conn.ExecContext (c : Conn) (_ctx : Ctx) (query : String)
    (args : List NamedValue) (entry now : Time) : OpResult RResult :=
  let evt := fun (err : Option Err) =>
    c.logger.Log LevelInfo "execContext" entry now err [logQuery query, logArgsNamed args]
  match c.conn.execerContext with
  | none => ⟨.nilPanic, [], evt none⟩
  | some _ => ⟨.err .errSkip, [], evt (some .errSkip)⟩

/-- `Conn.Query`: the capability check here is the straight one
(`if queryer, ok := c.conn.(driver.Queryer); ok { return queryer.Query(...) }`),
falling through to `return nil, driver.ErrSkip` when absent. -/
def Conn.Query (c : Conn) (query : String) (args : List Value)
    (entry now : Time) : OpResult RRows :=
  let evt := fun (err : Option Err) =>
    c.logger.Log LevelInfo "query" entry now err [logQuery query, logArgsValues args]
  match c.conn.queryer with
  | some q =>
    match q query args with
    | .ok rows => ⟨.ok rows, [.queryCall query args], evt none⟩
    | .error e => ⟨.err e, [.queryCall query args], evt (some e)⟩
  | none => ⟨.err .errSkip, [], evt (some .errSkip)⟩

/-- `Conn.QueryContext`: straight capability check against
`driver.QueryerContext`, `driver.ErrSkip` when absent. -/
def Conn.QueryContext (c : Conn) (ctx : Ctx) (query : String)
    (args : List NamedValue) (entry now : Time) : OpResult RRows :=
  let evt := fun (err : Option Err) =>
    c.logger.Log LevelInfo "queryContext" entry now err [logQuery query, logArgsNamed args]
  match c.conn.queryerContext with
  | some q =>
    match q ctx query args with
    | .ok rows => ⟨.ok rows, [.queryContextCall ctx query args], evt none⟩
    | .error e => ⟨.err e, [.queryContextCall ctx query args], evt (some e)⟩
  | none => ⟨.err .errSkip, [], evt (some .errSkip)⟩

/-- `Conn.newStmt`: wraps a fresh real statement in a statement proxy whose
logger is scoped with the statement's correlation attribute. -/
def Conn.newStmt (c : Conn) (stmt : RealStmt) (query stmtID : String) : Stmt :=
  ⟨stmt, query, c.logger.With [Attr.str "stmtID" stmtID]⟩

/-- `Conn.Prepare`: forwards to the real `Prepare`; the deferred log gets
the call's entry time, the minted `stmtID` and the query text. -/
def Conn.Prepare (c : Conn) (query stmtID : String) (entry now : Time) :
    OpResult Stmt :=
  let evt := fun (err : Option Err) =>
    c.logger.Log LevelInfo "prepare" entry now err
      [Attr.str "stmtID" stmtID, logQuery query]
  match c.conn.prepareRes query with
  | .error e => ⟨.err e, [.prepareCall query], evt (some e)⟩
  | .ok stmt =>
    ⟨.ok (c.newStmt stmt query stmtID), [.prepareCall query], evt none⟩

/-- `Conn.PrepareContext`: with `driver.ConnPrepareContext` present it
forwards; absent, it falls back to the plain `Prepare` and then, when the
context's `Done` channel is ready in the `select`, closes the just-prepared
real statement and returns `ctx.Err()`. The deferred log gets the call's
entry time. -/
def Conn.PrepareContext (c : Conn) (ctx : Ctx) (query stmtID : String)
    (entry now : Time) : OpResult Stmt :=
  let evt := fun (err : Option Err) =>
    c.logger.Log LevelInfo "prepareContext" entry now err
      [Attr.str "stmtID" stmtID, logQuery query]
  match c.conn.connPrepareContext with
  | some pc =>
    match pc ctx query with
    | .error e => ⟨.err e, [.prepareContextCall ctx query], evt (some e)⟩
    | .ok stmt =>
      ⟨.ok (c.newStmt stmt query stmtID), [.prepareContextCall ctx query],
        evt none⟩
  | none =>
    match c.conn.prepareRes query with
    | .error e => ⟨.err e, [.prepareCall query], evt (some e)⟩
    | .ok stmt =>
      if ctx.hasDone && ctx.canceled then
        ⟨.err ctx.errVal, [.prepareCall query, .closeCall],
          evt (some ctx.errVal)⟩
      else
        ⟨.ok (c.newStmt stmt query stmtID), [.prepareCall query], evt none⟩

/-- `Conn.Begin`. The deferred log is handed `time.Time{}` as `started`
(so it can never attach a duration); `txID` is the freshly minted
correlation id. -/
def Conn.Begin (c : Conn) (txID : String) (now : Time) : OpResult RTx :=
  let evt := fun (err : Option Err) =>
    c.logger.Log LevelInfo "begin" 0 now err [Attr.str "txID" txID]
  match c.conn.beginRes with
  | .error e => ⟨.err e, [.beginCall], evt (some e)⟩
  | .ok tx => ⟨.ok tx, [.beginCall], evt none⟩

/-- `Conn.BeginTx`. With `driver.ConnBeginTx` present it forwards; absent,
it enforces the default isolation level and non-read-only options itself,
calls the plain `Begin`, and then (when `ctx.Done()` is non-nil and already
ready) rolls the fresh transaction back and returns `ctx.Err()`.
The deferred log gets `time.Time{}` as `started`. -/
def Conn.BeginTx (c : Conn) (ctx : Ctx) (opts : TxOptions) (txID : String)
    (now : Time) : OpResult RTx :=
  let evt := fun (err : Option Err) =>
    c.logger.Log LevelInfo "beginTx" 0 now err
      [Attr.str "txID" txID, Attr.bool "readOnly" opts.ReadOnly]
  match c.conn.connBeginTx with
  | some bt =>
    match bt ctx opts with
    | .error e => ⟨.err e, [.connBeginTxCall ctx opts], evt (some e)⟩
    | .ok tx => ⟨.ok tx, [.connBeginTxCall ctx opts], evt none⟩
  | none =>
    if opts.Isolation ≠ 0 then
      let e := Err.other "sql: driver does not support non-default isolation level"
      ⟨.err e, [], evt (some e)⟩
    else if opts.ReadOnly then
      let e := Err.other "sql: driver does not support read-only transactions"
      ⟨.err e, [], evt (some e)⟩
    else
      match c.conn.beginRes with
      | .error e => ⟨.err e, [.beginCall], evt (some e)⟩
      | .ok tx =>
        if ctx.hasDone && ctx.canceled then
          ⟨.err ctx.errVal, [.beginCall, .rollbackCall], evt (some ctx.errVal)⟩
        else
          ⟨.ok tx, [.beginCall], evt none⟩

/-- `Conn.Close`: forwards to the real `Close`; the deferred log uses the
connection proxy's creation time `c.started` as the `started` argument. -/
def Conn.Close (c : Conn) (now : Time) : OpResult Unit :=
  let evt := fun (err : Option Err) =>
    c.logger.Log LevelInfo "close" c.started now err []
  match c.conn.closeRes with
  | some e => ⟨.err e, [.closeCall], evt (some e)⟩
  | none => ⟨.ok (), [.closeCall], evt none⟩

/-! ## The statement proxy (`internal.Stmt`) -/

/-- `Stmt.Close`: the deferred log is handed `time.Time{}` as `started`,
and the message carries the statement-category `StmtPrefix`. -/
def Stmt.Close (s : Stmt) (now : Time) : OpResult Unit :=
  let evt := fun (err : Option Err) =>
    s.logger.Log LevelInfo (s.logger.StmtPrefix ++ "close") 0 now err []
  match s.stmt.closeRes with
  | some e => ⟨.err e, [.closeCall], evt (some e)⟩
  | none => ⟨.ok (), [.closeCall], evt none⟩

/-- `Stmt.Exec`: forwards to the real `Exec`; the deferred log gets the
call's entry time. -/
def Stmt.Exec (s : Stmt) (args : List Value) (entry now : Time) : OpResult RResult :=
  let evt := fun (err : Option Err) =>
    s.logger.Log LevelInfo (s.logger.StmtPrefix ++ "exec") entry now err [logArgsValues args]
  match s.stmt.execRes args with
  | .ok r => ⟨.ok r, [.execCall s.query args], evt none⟩
  | .error e => ⟨.err e, [.execCall s.query args], evt (some e)⟩

/-- `Stmt.Query`: forwards to the real `Query`; the deferred log gets the
call's entry time. -/
def Stmt.Query (s : Stmt) (args : List Value) (entry now : Time) : OpResult RRows :=
  let evt := fun (err : Option Err) =>
    s.logger.Log LevelInfo (s.logger.StmtPrefix ++ "query") entry now err [logArgsValues args]
  match s.stmt.queryRes args with
  | .ok r => ⟨.ok r, [.queryCall s.query args], evt none⟩
  | .error e => ⟨.err e, [.queryCall s.query args], evt (some e)⟩

/-- `Stmt.ExecContext`: with `driver.StmtExecContext` present it forwards;
absent, it encodes the named arguments (failing on a named parameter),
then honors an already-ready cancellation, then falls back to the plain
`Exec`. The deferred log gets the call's entry time. -/
def Stmt.ExecContext (s : Stmt) (ctx : Ctx) (args : List NamedValue)
    (entry now : Time) : OpResult RResult :=
  let evt := fun (err : Option Err) =>
    s.logger.Log LevelInfo (s.logger.StmtPrefix ++ "execContext") entry now err
      [logArgsNamed args]
  match s.stmt.stmtExecContext with
  | some ec =>
    match ec ctx args with
    | .ok r => ⟨.ok r, [.execContextCall ctx s.query args], evt none⟩
    | .error e => ⟨.err e, [.execContextCall ctx s.query args], evt (some e)⟩
  | none =>
    match namedValueToValue args with
    | .error e => ⟨.err e, [], evt (some e)⟩
    | .ok dargs =>
      if ctx.hasDone && ctx.canceled then
        ⟨.err ctx.errVal, [], evt (some ctx.errVal)⟩
      else
        match s.stmt.execRes dargs with
        | .ok r => ⟨.ok r, [.execCall s.query dargs], evt none⟩
        | .error e => ⟨.err e, [.execCall s.query dargs], evt (some e)⟩

/-- `Stmt.QueryContext`: mirror of `Stmt.ExecContext` over the real
`Query`. -/
def Stmt.QueryContext (s : Stmt) (ctx : Ctx) (args : List NamedValue)
    (entry now : Time) : OpResult RRows :=
  let evt := fun (err : Option Err) =>
    s.logger.Log LevelInfo (s.logger.StmtPrefix ++ "queryContext") entry now err
      [logArgsNamed args]
  match s.stmt.stmtQueryContext with
  | some qc =>
    match qc ctx args with
    | .ok r => ⟨.ok r, [.queryContextCall ctx s.query args], evt none⟩
    | .error e => ⟨.err e, [.queryContextCall ctx s.query args], evt (some e)⟩
  | none =>
    match namedValueToValue args with
    | .error e => ⟨.err e, [], evt (some e)⟩
    | .ok dargs =>
      if ctx.hasDone && ctx.canceled then
        ⟨.err ctx.errVal, [], evt (some ctx.errVal)⟩
      else
        match s.stmt.queryRes dargs with
        | .ok r => ⟨.ok r, [.queryCall s.query dargs], evt none⟩
        | .error e => ⟨.err e, [.queryCall s.query dargs], evt (some e)⟩

/-! ## The driver proxy (`internal.Driver` / `NewDriver`) -/

/-- A wrapped real driver: its mandatory `Open`, and the optional
`driver.DriverContext` capability (`OpenConnector`). -/
structure RealDriver where
  openRes : String → Except Err RealConn
  driverContext : Option (String → Except Err Nat)

/-- `internal.Driver`: the proxy's fields. -/
structure DriverProxy where
  driver : RealDriver
  logger : Logger

/-- What `NewDriver` hands back: either the `*Driver` itself (whose method
set includes `OpenConnector`, so it satisfies `driver.DriverContext`), or
the anonymous `struct{ driver.Driver }` wrapper whose method set is only
`driver.Driver`, structurally hiding `OpenConnector`. -/
inductive ReturnedDriver where
  | full (d : DriverProxy)
  | hidden (d : DriverProxy)

/-- `NewDriver`: return the `*Driver` when the real driver implements
`driver.DriverContext`, else wrap it so only `driver.Driver` is exposed. -/
def NewDriver (d : RealDriver) (logger : Logger) : ReturnedDriver :=
  let dr : DriverProxy := ⟨d, logger⟩
  if (d.driverContext).isSome then .full dr
  else .hidden dr

/-- The capability probe `_, ok := v.(driver.DriverContext)` on the value
`NewDriver` returned: the `*Driver` satisfies it, the anonymous wrapper
does not. -/
def ReturnedDriver.isDriverContext : ReturnedDriver → Bool
  | .full _ => true
  | .hidden _ => false

/-! ## The connector proxy (`internal.Connector`) -/

/-- `internal.Connector`: the data-source name, the real driver and the
scoped logger. -/
structure Connector where
  dsn : String
  driver : RealDriver
  logger : Logger

/-- `Connector.Connect`: mints `connID`, opens the real connection via the
real driver's `Open`, and wraps a successful result in a connection proxy
scoped with the id; the deferred log gets the call's entry time and the
`connID` attribute. -/
def Connector.Connect (c : Connector) (connID : String) (entry now : Time) :
    OpResult Conn :=
  let evt := fun (err : Option Err) =>
    c.logger.Log LevelInfo "connect" entry now err [Attr.str "connID" connID]
  match c.driver.openRes c.dsn with
  | .error e => ⟨.err e, [.openCall c.dsn], evt (some e)⟩
  | .ok conn =>
    ⟨.ok (NewConn conn (c.logger.With [Attr.str "connID" connID]) now),
      [.openCall c.dsn], evt none⟩

/-! ## Concrete fixtures used to evaluate the embedding -/

/-- Whether an attribute is a duration attribute. -/
def Attr.isDuration : Attr → Bool
  | .duration _ _ => true
  | _ => false

/-- No record emitted, or a record none of whose attributes is a duration. -/
def noDurationEvt : Option Record → Bool
  | none => true
  | some r => r.attrs.all fun a => ! a.isDuration

/-- The default logger configuration of `newDefaultLogger`, with a sink. -/
def sinkLogger : Logger :=
  { hasSink := true, sinkAttrs := [], BaseLevel := 0, BasePrefix := "sql:",
    StmtPrefix := "stmt:", TxPrefix := "tx:", WithDuration := true,
    WarnErrSkip := false }

/-- A real statement implementing none of the optional capabilities;
its calls succeed. -/
def baseRealStmt : RealStmt :=
  { closeRes := none, execRes := fun _ => .ok 3, queryRes := fun _ => .ok 4,
    stmtExecContext := none, stmtQueryContext := none }

/-- A real connection implementing none of the optional capabilities. -/
def baseRealConn : RealConn :=
  { prepareRes := fun _ => .ok baseRealStmt, closeRes := none,
    beginRes := .ok 7, pinger := none, execer := none, execerContext := none,
    queryer := none, queryerContext := none, connPrepareContext := none,
    connBeginTx := none, sessionResetter := none, namedValueChecker := none }

/-- A proxy over `baseRealConn`. -/
def cBase : Conn := NewConn baseRealConn sinkLogger 1

/-- A real connection implementing `driver.Execer`, `driver.ExecerContext`,
`driver.Queryer` and `driver.QueryerContext`; exec succeeds with result `7`,
query with rows `9`. -/
def execRealConn : RealConn :=
  { baseRealConn with
    execer := some fun _ _ => Except.ok 7
    execerContext := some fun _ _ _ => Except.ok 7
    queryer := some fun _ _ => Except.ok 9
    queryerContext := some fun _ _ _ => Except.ok 9 }

/-- A proxy over `execRealConn`. -/
def cExec : Conn := NewConn execRealConn sinkLogger 1

/-- A real connection implementing `driver.Pinger`, whose `Ping` fails. -/
def pingRealConn : RealConn :=
  { baseRealConn with pinger := some fun _ => some (Err.other "ping failed") }

/-- A proxy over `pingRealConn`. -/
def cPing : Conn := NewConn pingRealConn sinkLogger 1

/-- A statement proxy over a real statement whose calls succeed. -/
def sBase : Stmt := ⟨baseRealStmt, "SELECT 1", sinkLogger⟩

/-- A real driver without `driver.DriverContext` whose `Open` succeeds. -/
def baseRealDriver : RealDriver :=
  { openRes := fun _ => .ok baseRealConn, driverContext := none }

/-- A connector proxy over `baseRealDriver`. -/
def coBase : Connector := ⟨"dsn", baseRealDriver, sinkLogger⟩

/-! ## Helper lemmas about `Logger.Log` -/

/-- The masked index equals `b &&& 61` outright: the alphabet has 62 symbols. -/
theorem uidIndex_eq (b : Nat) : uidIndex b = b &&& 61 := rfl

/-- When `Log` receives the zero `started` time it never appends a duration
attribute: an emitted record's attributes are the sink's accumulated ones,
the call-site ones, and possibly one error attribute. -/
theorem Logger.Log_zero_started_attrs (l : Logger) (lvl : Level) (msg : String)
    (now : Time) (err : Option Err) (attrs : List Attr) (r : Record)
    (h : l.Log lvl msg 0 now err attrs = some r) :
    r.attrs = l.sinkAttrs ++ attrs ∨
    ∃ e, r.attrs = l.sinkAttrs ++ (attrs ++ [Attr.anyErr "error" e]) := by
  unfold Logger.Log at h
  by_cases hs : l.hasSink = false
  · simp [hs] at h
  · rw [if_neg hs] at h
    simp only [Bool.and_false, beq_self_eq_true, Bool.not_true, if_false] at h
    match err with
    | none =>
      simp only at h
      cases h
      exact Or.inl rfl
    | some e =>
      simp only at h
      by_cases hsk : e.isErrSkip = true
      · rw [if_pos hsk] at h
        by_cases hw : l.WarnErrSkip = true
        · have : (!l.WarnErrSkip) = false := by simp [hw]
          rw [this, if_neg (by simp)] at h
          cases h
          exact Or.inr ⟨e, rfl⟩
        · have hwf : l.WarnErrSkip = false := by
            cases hW : l.WarnErrSkip
            · rfl
            · exact absurd hW hw
          simp [hwf] at h
      · rw [if_neg hsk] at h
        cases h
        exact Or.inr ⟨e, rfl⟩

/-- When duration reporting is on and `started` is non-zero, every record
`Log` emits carries the elapsed-duration attribute `now - started`. -/
theorem Logger.Log_duration_mem (l : Logger) (lvl : Level) (msg : String)
    (started now : Time) (err : Option Err) (attrs : List Attr) (r : Record)
    (hwd : l.WithDuration = true) (hst : started ≠ 0)
    (h : l.Log lvl msg started now err attrs = some r) :
    Attr.duration "duration" (now - started) ∈ r.attrs := by
  unfold Logger.Log at h
  by_cases hs : l.hasSink = false
  · simp [hs] at h
  · rw [if_neg hs] at h
    have hb : (started == 0) = false := by simpa using hst
    rw [hwd, hb] at h
    simp only [Bool.not_false, Bool.and_self, if_true] at h
    match err with
    | none =>
      simp only at h
      cases h
      simp
    | some e =>
      simp only at h
      by_cases hsk : e.isErrSkip = true
      · rw [if_pos hsk] at h
        by_cases hw : l.WarnErrSkip = true
        · have : (!l.WarnErrSkip) = false := by simp [hw]
          rw [this, if_neg (by simp)] at h
          cases h
          simp
        · have hwf : l.WarnErrSkip = false := by
            cases hW : l.WarnErrSkip
            · rfl
            · exact absurd hW hw
          simp [hwf] at h
      · rw [if_neg hsk] at h
        cases h
        simp

/-- When `Log` receives the zero `started` time and both the sink's
attributes and the call-site attributes are duration-free, so is every
attribute of an emitted record. -/
theorem Logger.Log_zero_started_no_duration (l : Logger) (lvl : Level)
    (msg : String) (now : Time) (err : Option Err) (attrs : List Attr)
    (hsa : ∀ a ∈ l.sinkAttrs, a.isDuration = false)
    (hca : ∀ a ∈ attrs, a.isDuration = false) :
    ∀ r, l.Log lvl msg 0 now err attrs = some r →
      ∀ a ∈ r.attrs, a.isDuration = false := by
  intro r h a ha
  rcases Logger.Log_zero_started_attrs l lvl msg now err attrs r h with heq | ⟨e, heq⟩
  · rw [heq] at ha
    rcases List.mem_append.mp ha with h1 | h2
    · exact hsa a h1
    · exact hca a h2
  · rw [heq] at ha
    rcases List.mem_append.mp ha with h1 | h2
    · exact hsa a h1
    · rcases List.mem_append.mp h2 with h3 | h4
      · exact hca a h3
      · rw [List.mem_singleton.mp h4]
        rfl

/-- Every branch of `Conn.Begin` logs the `begin` event with the zero
`started` time and the `txID` attribute. -/
theorem Conn.Begin_event_shape (c : Conn) (txID : String) (now : Time) :
    ∃ err, (Conn.Begin c txID now).event =
      c.logger.Log LevelInfo "begin" 0 now err [Attr.str "txID" txID] := by
  unfold Conn.Begin
  repeat' split
  all_goals first
    | exact ⟨none, rfl⟩
    | exact ⟨some _, rfl⟩

/-- Every branch of `Conn.BeginTx` logs the `beginTx` event with the zero
`started` time and the `txID`/`readOnly` attributes. -/
theorem Conn.BeginTx_event_shape (c : Conn) (ctx : Ctx) (opts : TxOptions)
    (txID : String) (now : Time) :
    ∃ err, (Conn.BeginTx c ctx opts txID now).event =
      c.logger.Log LevelInfo "beginTx" 0 now err
        [Attr.str "txID" txID, Attr.bool "readOnly" opts.ReadOnly] := by
  unfold Conn.BeginTx
  repeat' split
  all_goals first
    | exact ⟨none, rfl⟩
    | exact ⟨some _, rfl⟩

/-- Every branch of `Stmt.Close` logs the statement `close` event with the
zero `started` time. -/
theorem stmtClose_event_shape (s : Stmt) (now : Time) :
    ∃ err, (Stmt.Close s now).event =
      s.logger.Log LevelInfo (s.logger.StmtPrefix ++ "close") 0 now err [] := by
  unfold Stmt.Close
  repeat' split
  all_goals first
    | exact ⟨none, rfl⟩
    | exact ⟨some _, rfl⟩

/-- Every branch of `Conn.Close` logs the `close` event with the
connection proxy's creation time as `started`. -/
theorem connClose_event_shape (c : Conn) (now : Time) :
    ∃ err, (Conn.Close c now).event =
      c.logger.Log LevelInfo "close" c.started now err [] := by
  unfold Conn.Close
  repeat' split
  all_goals first
    | exact ⟨none, rfl⟩
    | exact ⟨some _, rfl⟩

/-- Every branch of `Conn.Query` logs the `query` event with the call's
entry time as `started`. -/
theorem Conn.Query_event_shape (c : Conn) (q : String) (args : List Value)
    (entry now : Time) :
    ∃ err, (Conn.Query c q args entry now).event =
      c.logger.Log LevelInfo "query" entry now err
        [logQuery q, logArgsValues args] := by
  unfold Conn.Query
  repeat' split
  all_goals first
    | exact ⟨none, rfl⟩
    | exact ⟨some _, rfl⟩

/-- Every branch of `Stmt.Exec` logs the statement `exec` event with the
call's entry time as `started`. -/
theorem Stmt.Exec_event_shape (s : Stmt) (args : List Value)
    (entry now : Time) :
    ∃ err, (Stmt.Exec s args entry now).event =
      s.logger.Log LevelInfo (s.logger.StmtPrefix ++ "exec") entry now err
        [logArgsValues args] := by
  unfold Stmt.Exec
  repeat' split
  all_goals first
    | exact ⟨none, rfl⟩
    | exact ⟨some _, rfl⟩

/-- Every branch of `Connector.Connect` logs the `connect` event with the
call's entry time as `started`. -/
theorem connect_event_shape (c : Connector) (connID : String)
    (entry now : Time) :
    ∃ err, (Connector.Connect c connID entry now).event =
      c.logger.Log LevelInfo "connect" entry now err
        [Attr.str "connID" connID] := by
  unfold Connector.Connect
  repeat' split
  all_goals first
    | exact ⟨none, rfl⟩
    | exact ⟨some _, rfl⟩

/-- Every branch of `Conn.Ping` logs the `ping` event with the call's
entry time as `started`. -/
theorem ping_event_shape (c : Conn) (ctx : Ctx) (entry now : Time) :
    ∃ err, (Conn.Ping c ctx entry now).event =
      c.logger.Log LevelDebug "ping" entry now err [] := by
  unfold Conn.Ping
  repeat' split
  all_goals exact ⟨none, rfl⟩

/-- Every branch of `Conn.Exec` logs the `exec` event with the call's
entry time as `started`. -/
theorem connExec_event_shape (c : Conn) (q : String) (args : List Value)
    (entry now : Time) :
    ∃ err, (Conn.Exec c q args entry now).event =
      c.logger.Log LevelInfo "exec" entry now err
        [logQuery q, logArgsValues args] := by
  unfold Conn.Exec
  repeat' split
  all_goals first
    | exact ⟨none, rfl⟩
    | exact ⟨some _, rfl⟩

/-- Every branch of `Conn.ExecContext` logs the `execContext` event with
the call's entry time as `started`. -/
theorem connExecContext_event_shape (c : Conn) (ctx : Ctx) (q : String)
    (args : List NamedValue) (entry now : Time) :
    ∃ err, (Conn.ExecContext c ctx q args entry now).event =
      c.logger.Log LevelInfo "execContext" entry now err
        [logQuery q, logArgsNamed args] := by
  unfold Conn.ExecContext
  repeat' split
  all_goals first
    | exact ⟨none, rfl⟩
    | exact ⟨some _, rfl⟩

/-- Every branch of `Conn.QueryContext` logs the `queryContext` event with
the call's entry time as `started`. -/
theorem connQueryContext_event_shape (c : Conn) (ctx : Ctx) (q : String)
    (args : List NamedValue) (entry now : Time) :
    ∃ err, (Conn.QueryContext c ctx q args entry now).event =
      c.logger.Log LevelInfo "queryContext" entry now err
        [logQuery q, logArgsNamed args] := by
  unfold Conn.QueryContext
  repeat' split
  all_goals first
    | exact ⟨none, rfl⟩
    | exact ⟨some _, rfl⟩

/-- Every branch of `Conn.Prepare` logs the `prepare` event with the
call's entry time as `started`. -/
theorem prepare_event_shape (c : Conn) (q stmtID : String)
    (entry now : Time) :
    ∃ err, (Conn.Prepare c q stmtID entry now).event =
      c.logger.Log LevelInfo "prepare" entry now err
        [Attr.str "stmtID" stmtID, logQuery q] := by
  unfold Conn.Prepare
  repeat' split
  all_goals first
    | exact ⟨none, rfl⟩
    | exact ⟨some _, rfl⟩

/-- Every branch of `Conn.PrepareContext` logs the `prepareContext` event
with the call's entry time as `started`. -/
theorem prepareContext_event_shape (c : Conn) (ctx : Ctx) (q stmtID : String)
    (entry now : Time) :
    ∃ err, (Conn.PrepareContext c ctx q stmtID entry now).event =
      c.logger.Log LevelInfo "prepareContext" entry now err
        [Attr.str "stmtID" stmtID, logQuery q] := by
  unfold Conn.PrepareContext
  repeat' split
  all_goals first
    | exact ⟨none, rfl⟩
    | exact ⟨some _, rfl⟩

/-- Every branch of `Stmt.Query` logs the statement `query` event with the
call's entry time as `started`. -/
theorem stmtQuery_event_shape (s : Stmt) (args : List Value)
    (entry now : Time) :
    ∃ err, (Stmt.Query s args entry now).event =
      s.logger.Log LevelInfo (s.logger.StmtPrefix ++ "query") entry now err
        [logArgsValues args] := by
  unfold Stmt.Query
  repeat' split
  all_goals first
    | exact ⟨none, rfl⟩
    | exact ⟨some _, rfl⟩

/-- Every branch of `Stmt.ExecContext` logs the statement `execContext`
event with the call's entry time as `started`. -/
theorem stmtExecContext_event_shape (s : Stmt) (ctx : Ctx)
    (args : List NamedValue) (entry now : Time) :
    ∃ err, (Stmt.ExecContext s ctx args entry now).event =
      s.logger.Log LevelInfo (s.logger.StmtPrefix ++ "execContext") entry now
        err [logArgsNamed args] := by
  unfold Stmt.ExecContext
  repeat' split
  all_goals first
    | exact ⟨none, rfl⟩
    | exact ⟨some _, rfl⟩

/-- Every branch of `Stmt.QueryContext` logs the statement `queryContext`
event with the call's entry time as `started`. -/
theorem stmtQueryContext_event_shape (s : Stmt) (ctx : Ctx)
    (args : List NamedValue) (entry now : Time) :
    ∃ err, (Stmt.QueryContext s ctx args entry now).event =
      s.logger.Log LevelInfo (s.logger.StmtPrefix ++ "queryContext") entry now
        err [logArgsNamed args] := by
  unfold Stmt.QueryContext
  repeat' split
  all_goals first
    | exact ⟨none, rfl⟩
    | exact ⟨some _, rfl⟩

/-! ## The claims -/

/-- C3: the value the driver-proxy constructor returns satisfies the
`driver.DriverContext` capability probe exactly when the wrapped real
driver does — a proxy over a driver lacking it is returned through the
anonymous wrapper that structurally hides `OpenConnector`, and a proxy
over a driver implementing it is returned as the `*Driver` that exposes it. -/
theorem newDriver_preserves_driverContext (d : RealDriver) (logger : Logger) :
    (NewDriver d logger).isDriverContext = d.driverContext.isSome := by
  unfold NewDriver
  by_cases h : d.driverContext.isSome = true
  · simp only [h, if_true]
    rfl
  · simp only [h, if_false, Bool.not_eq_true] at *
    simp [h, ReturnedDriver.isDriverContext]

/-- C9: `Logger.With` returns a logger whose attribute set is the parent's
extended by the new attributes (so a superset of the parent's), with every
configuration field carried over unchanged; the receiver is taken by value,
so the parent logger value itself is never mutated. -/
theorem logger_with_copy_on_extend (l : Logger) (attrs : List Attr) :
    (l.With attrs).sinkAttrs = l.sinkAttrs ++ attrs ∧
    (l.With attrs).hasSink = l.hasSink ∧
    (l.With attrs).BaseLevel = l.BaseLevel ∧
    (l.With attrs).BasePrefix = l.BasePrefix ∧
    (l.With attrs).StmtPrefix = l.StmtPrefix ∧
    (l.With attrs).TxPrefix = l.TxPrefix ∧
    (l.With attrs).WithDuration = l.WithDuration ∧
    (l.With attrs).WarnErrSkip = l.WarnErrSkip ∧
    (∀ a ∈ l.sinkAttrs, a ∈ (l.With attrs).sinkAttrs) := by
  refine ⟨rfl, rfl, rfl, rfl, rfl, rfl, rfl, rfl, ?_⟩
  intro a ha
  simp only [Logger.With, List.mem_append]
  exact Or.inl ha

/-- C10: for any 8 random bytes, `NewUID` yields a string of exactly 8
characters drawn from the 62-symbol alphabet: each byte's index is
`b &&& 61`, which is strictly below the alphabet length, so the indexing
is always in bounds; and the generator only fails on the modelled fatal
panic of a failing random source. -/
theorem newUID_always_in_bounds (bytes : List Nat)
    (hlen : bytes.length = defaultUIDLen) :
    (NewUID bytes).length = 8 ∧
    (∀ ch ∈ (NewUID bytes).toList, ch ∈ defaultUIDCharlist) ∧
    (∀ b : Nat, uidIndex b = b &&& 61 ∧
      uidIndex b < defaultUIDCharlist.length) ∧
    NewUIDTotal (Except.ok bytes) = some (NewUID bytes) := by
  have hidx : ∀ b : Nat, uidIndex b < defaultUIDCharlist.length := by
    intro b
    have h1 : uidIndex b ≤ defaultUIDCharlist.length - 1 := Nat.and_le_right
    have h2 : defaultUIDCharlist.length = 62 := by decide
    omega
  refine ⟨?_, ?_, fun b => ⟨uidIndex_eq b, hidx b⟩, rfl⟩
  · show (bytes.map _).length = 8
    rw [List.length_map, hlen]
    rfl
  · intro ch hch
    have : ch ∈ bytes.map fun b => defaultUIDCharlist.getD (uidIndex b) 'A' := hch
    obtain ⟨b, _, rfl⟩ := List.mem_map.mp this
    rw [List.getD_eq_getElem _ _ (hidx b)]
    exact List.getElem_mem (hidx b)

/-- C10 witness: the theorem applied to the concrete byte sequence
`[0, 1, 2, 3, 4, 5, 6, 7]`. -/
theorem newUID_always_in_bounds_witness :
    ([0, 1, 2, 3, 4, 5, 6, 7] : List Nat).length = defaultUIDLen ∧
    (NewUID [0, 1, 2, 3, 4, 5, 6, 7]).length = 8 :=
  ⟨rfl, (newUID_always_in_bounds [0, 1, 2, 3, 4, 5, 6, 7] rfl).1⟩

/-- C8 counterexample: the generator's mask is `&&& 61` (the alphabet
length minus one), not `&&& 63` (that length rounded up to a power of two
minus one): on byte `2` the computed index is `0`, although `2 &&& 63 = 2`;
and index `2` is unreachable from every byte, refuting "every index value
from 0 to 61 is reachable". -/
theorem uid_mask_is_61_not_63 :
    uidIndex 2 = 0 ∧ (2 : Nat) &&& 63 = 2 ∧
    ((List.range 256).all fun b => uidIndex b != 2) = true := by
  refine ⟨rfl, rfl, ?_⟩
  decide

/-- C8 amended: each byte is masked against the alphabet length minus one
itself (bitwise AND with 61), so the index never exceeds 61 and stays in
bounds, but the 2-bit of the index is always clear: only the 32 index
values with that bit clear are reachable (each such value is reached by
the byte equal to it), so the bias is not limited to the alphabet length
not being a power of two. -/
theorem uid_mask_amended (b : Nat) (hb : b < 256) :
    uidIndex b = b &&& 61 ∧ uidIndex b ≤ 61 ∧ uidIndex b &&& 2 = 0 ∧
    (∀ v, v ≤ 61 → v &&& 2 = 0 → uidIndex v = v) := by
  refine ⟨uidIndex_eq b, ?_, ?_, ?_⟩
  · rw [uidIndex_eq]
    exact Nat.and_le_right
  · rw [uidIndex_eq]
    have h : ∀ x < 256, (x &&& 61) &&& 2 = 0 := by decide
    exact h b hb
  · intro v h1 h2
    rw [uidIndex_eq]
    have h : ∀ x ≤ 61, x &&& 2 = 0 → x &&& 61 = x := by decide
    exact h v h1 h2

/-- C8 amended witness: the theorem applied to byte `5`. -/
theorem uid_mask_amended_witness :
    (5 : Nat) < 256 ∧ uidIndex 5 = 5 &&& 61 :=
  ⟨by decide, (uid_mask_amended 5 (by decide)).1⟩

/-- C6: with a configured sink and a non-nil error, `Logger.Log` emits: no
record at all when the error is the `ErrSkip` sentinel and the surfacing
flag is unset; exactly one record at warning severity with the error
attached when the sentinel is surfaced; and exactly one record at error
severity — overriding the base offset plus caller severity — with the
error attached, for any other error. -/
theorem logger_log_error_cases (l : Logger) (lvl : Level) (msg : String)
    (started now : Time) (e : Err) (attrs : List Attr)
    (hsink : l.hasSink = true) :
    (e.isErrSkip = true → l.WarnErrSkip = false →
      l.Log lvl msg started now (some e) attrs = none) ∧
    (e.isErrSkip = true → l.WarnErrSkip = true →
      ∃ r, l.Log lvl msg started now (some e) attrs = some r ∧
        r.level = LevelWarn ∧ Attr.anyErr "error" e ∈ r.attrs) ∧
    (e.isErrSkip = false →
      ∃ r, l.Log lvl msg started now (some e) attrs = some r ∧
        r.level = LevelError ∧ Attr.anyErr "error" e ∈ r.attrs) := by
  have hns : ¬ l.hasSink = false := by simp [hsink]
  unfold Logger.Log
  rw [if_neg hns]
  refine ⟨?_, ?_, ?_⟩
  · intro hsk hw
    simp [hsk, hw]
  · intro hsk hw
    simp only [hsk, hw, Bool.not_true, if_true, if_false, Bool.false_eq_true]
    exact ⟨_, rfl, rfl, by simp⟩
  · intro hsk
    simp only [hsk, Bool.false_eq_true, if_false]
    exact ⟨_, rfl, rfl, by simp⟩

/-- C6 witness: the theorem applied to the default configuration and a
non-sentinel error. -/
theorem logger_log_error_cases_witness :
    sinkLogger.hasSink = true ∧
    ((Err.other "boom").isErrSkip = false →
      ∃ r, sinkLogger.Log LevelInfo "m" 1 2 (some (.other "boom")) [] = some r ∧
        r.level = LevelError ∧ Attr.anyErr "error" (.other "boom") ∈ r.attrs) :=
  ⟨rfl, (logger_log_error_cases sinkLogger LevelInfo "m" 1 2 (.other "boom") [] rfl).2.2⟩

/-- C4: when the real connection lacks `driver.ConnBeginTx` and a
non-default isolation level or a read-only transaction is requested,
`Conn.BeginTx` returns the corresponding descriptive error and performs
no call on the real connection — in particular `Begin` is never called. -/
theorem beginTx_fallback_rejects_options (c : Conn) (ctx : Ctx)
    (opts : TxOptions) (txID : String) (now : Time)
    (hcap : c.conn.connBeginTx = none)
    (hopts : opts.Isolation ≠ 0 ∨ opts.ReadOnly = true) :
    ((Conn.BeginTx c ctx opts txID now).out =
        .err (.other "sql: driver does not support non-default isolation level") ∨
      (Conn.BeginTx c ctx opts txID now).out =
        .err (.other "sql: driver does not support read-only transactions")) ∧
    (Conn.BeginTx c ctx opts txID now).calls = [] := by
  unfold Conn.BeginTx
  rw [hcap]
  by_cases hiso : opts.Isolation = 0
  · rcases hopts with h | h
    · exact absurd hiso h
    · simp [hiso, h]
  · simp [hiso]

/-- C4 witness: the theorem applied to a capability-lacking connection and
a request for isolation level 1. -/
theorem beginTx_fallback_rejects_options_witness :
    cBase.conn.connBeginTx = none ∧
    (Conn.BeginTx cBase ⟨true, false⟩ ⟨1, false⟩ "t1" 5).calls = [] :=
  ⟨rfl, (beginTx_fallback_rejects_options cBase ⟨true, false⟩ ⟨1, false⟩ "t1" 5 rfl
    (Or.inl (by decide))).2⟩

/-- C5: when the real connection lacks `driver.ConnBeginTx` and `BeginTx`
is called with an already-canceled context, default isolation and
read-only `false`, and the real `Begin` succeeds: the proxy calls the real
`Begin`, rolls the fresh transaction back, and returns the context's
cancellation error instead of the transaction. -/
theorem beginTx_fallback_canceled_context (c : Conn) (ctx : Ctx)
    (txID : String) (now : Time) (tx : RTx)
    (hcap : c.conn.connBeginTx = none)
    (hbeg : c.conn.beginRes = .ok tx)
    (hdone : ctx.hasDone = true) (hcanc : ctx.canceled = true) :
    (Conn.BeginTx c ctx ⟨0, false⟩ txID now).out = .err contextCanceled ∧
    (Conn.BeginTx c ctx ⟨0, false⟩ txID now).calls =
      [.beginCall, .rollbackCall] := by
  unfold Conn.BeginTx
  rw [hcap]
  simp only [hbeg, hdone, hcanc]
  simp [Ctx.errVal]

/-- C5 witness: the theorem applied to a capability-lacking connection and
a canceled context. -/
theorem beginTx_fallback_canceled_context_witness :
    cBase.conn.connBeginTx = none ∧
    (Conn.BeginTx cBase ⟨true, true⟩ ⟨0, false⟩ "t1" 5).out =
      .err contextCanceled :=
  ⟨rfl, (beginTx_fallback_canceled_context cBase ⟨true, true⟩ "t1" 5 7
    rfl rfl rfl rfl).1⟩

/-- C1 (code bug evaluation): the capability checks of `Conn.Exec` and
`Conn.ExecContext` are inverted in the source. Over a real connection that
implements `driver.Execer` and `driver.ExecerContext`, both return the
`driver.ErrSkip` sentinel without invoking the real method; over one that
lacks them, both call the method on the nil interface left by the failed
type assertion (a runtime panic). `Conn.Query` and `Conn.QueryContext`
behave as the claim states (forward when present, sentinel when absent). -/
theorem conn_exec_capability_inverted :
    (Conn.Exec cExec "q" [] 2 3).out = .err .errSkip ∧
    (Conn.Exec cExec "q" [] 2 3).calls = [] ∧
    (Conn.ExecContext cExec ⟨false, false⟩ "q" [] 2 3).out = .err .errSkip ∧
    (Conn.ExecContext cExec ⟨false, false⟩ "q" [] 2 3).calls = [] ∧
    (Conn.Exec cBase "q" [] 2 3).out = .nilPanic ∧
    (Conn.ExecContext cBase ⟨false, false⟩ "q" [] 2 3).out = .nilPanic ∧
    (Conn.Query cExec "q" [] 2 3).out = .ok 9 ∧
    (Conn.Query cExec "q" [] 2 3).calls = [.queryCall "q" []] ∧
    (Conn.Query cBase "q" [] 2 3).out = .err .errSkip ∧
    (Conn.Query cBase "q" [] 2 3).calls = [] :=
  ⟨rfl, rfl, rfl, rfl, rfl, rfl, rfl, rfl, rfl, rfl⟩

/-- C2 (code bug evaluation): the capability check of `Conn.Ping` is
inverted in the source. Over a real connection implementing
`driver.Pinger` whose `Ping` fails, the proxy returns success without
calling the real `Ping`; over one lacking `driver.Pinger`, the proxy calls
the nil interface (a runtime panic) instead of returning nil. -/
theorem conn_ping_capability_inverted :
    (Conn.Ping cPing ⟨false, false⟩ 2 3).out = .ok () ∧
    (Conn.Ping cPing ⟨false, false⟩ 2 3).calls = [] ∧
    (Conn.Ping cBase ⟨false, false⟩ 2 3).out = .nilPanic ∧
    (Conn.Ping cBase ⟨false, false⟩ 2 3).calls = [] :=
  ⟨rfl, rfl, rfl, rfl⟩

/-- C7 counterexample: with duration reporting enabled and a configured
sink, the connection proxy's `begin` event is emitted but carries no
duration attribute at all — the deferred log call receives the zero time
instead of the call's entry time — and the statement proxy's `close` event
likewise carries none. -/
theorem begin_event_lacks_duration :
    sinkLogger.WithDuration = true ∧
    (Conn.Begin cBase "t1" 5).event =
      some ⟨LevelInfo, "sql:begin", [Attr.str "txID" "t1"]⟩ ∧
    noDurationEvt (Conn.Begin cBase "t1" 5).event = true ∧
    noDurationEvt (Stmt.Close sBase 5).event = true :=
  ⟨rfl, rfl, rfl, rfl⟩

/-- C7 amended: with duration reporting enabled, every event of an
operation that passes its entry time to the deferred log — the connector's
`connect`, the connection proxy's `ping`, `exec`, `execContext`, `query`,
`queryContext`, `prepare` and `prepareContext`, and the statement proxy's
`exec`, `execContext`, `query` and `queryContext` — carries an
elapsed-duration attribute measured from that call's entry; but the
connection proxy's `begin` and `beginTx` events and the statement proxy's
`close` event are handed the zero time and never carry a duration
attribute, and the connection proxy's `close` event measures its duration
from the proxy's creation time, not from the call's entry. -/
theorem duration_attribute_placement (co : Connector) (c : Conn) (s : Stmt)
    (ctx : Ctx) (opts : TxOptions) (connID txID stmtID q : String)
    (vargs : List Value) (nargs : List NamedValue) (entry now : Time)
    (hca : ∀ a ∈ c.logger.sinkAttrs, a.isDuration = false)
    (hsa : ∀ a ∈ s.logger.sinkAttrs, a.isDuration = false) :
    (∀ r, (Conn.Begin c txID now).event = some r →
      ∀ a ∈ r.attrs, a.isDuration = false) ∧
    (∀ r, (Conn.BeginTx c ctx opts txID now).event = some r →
      ∀ a ∈ r.attrs, a.isDuration = false) ∧
    (∀ r, (Stmt.Close s now).event = some r →
      ∀ a ∈ r.attrs, a.isDuration = false) ∧
    (c.logger.WithDuration = true → c.started ≠ 0 →
      ∀ r, (Conn.Close c now).event = some r →
        Attr.duration "duration" (now - c.started) ∈ r.attrs) ∧
    (co.logger.WithDuration = true → entry ≠ 0 →
      ∀ r, (Connector.Connect co connID entry now).event = some r →
        Attr.duration "duration" (now - entry) ∈ r.attrs) ∧
    (c.logger.WithDuration = true → entry ≠ 0 →
      (∀ r, (Conn.Ping c ctx entry now).event = some r →
        Attr.duration "duration" (now - entry) ∈ r.attrs) ∧
      (∀ r, (Conn.Exec c q vargs entry now).event = some r →
        Attr.duration "duration" (now - entry) ∈ r.attrs) ∧
      (∀ r, (Conn.ExecContext c ctx q nargs entry now).event = some r →
        Attr.duration "duration" (now - entry) ∈ r.attrs) ∧
      (∀ r, (Conn.Query c q vargs entry now).event = some r →
        Attr.duration "duration" (now - entry) ∈ r.attrs) ∧
      (∀ r, (Conn.QueryContext c ctx q nargs entry now).event = some r →
        Attr.duration "duration" (now - entry) ∈ r.attrs) ∧
      (∀ r, (Conn.Prepare c q stmtID entry now).event = some r →
        Attr.duration "duration" (now - entry) ∈ r.attrs) ∧
      (∀ r, (Conn.PrepareContext c ctx q stmtID entry now).event = some r →
        Attr.duration "duration" (now - entry) ∈ r.attrs)) ∧
    (s.logger.WithDuration = true → entry ≠ 0 →
      (∀ r, (Stmt.Exec s vargs entry now).event = some r →
        Attr.duration "duration" (now - entry) ∈ r.attrs) ∧
      (∀ r, (Stmt.ExecContext s ctx nargs entry now).event = some r →
        Attr.duration "duration" (now - entry) ∈ r.attrs) ∧
      (∀ r, (Stmt.Query s vargs entry now).event = some r →
        Attr.duration "duration" (now - entry) ∈ r.attrs) ∧
      (∀ r, (Stmt.QueryContext s ctx nargs entry now).event = some r →
        Attr.duration "duration" (now - entry) ∈ r.attrs)) := by
  refine ⟨?_, ?_, ?_, ?_, ?_, ?_, ?_⟩
  · intro r hr
    obtain ⟨err, hev⟩ := Conn.Begin_event_shape c txID now
    rw [hev] at hr
    exact Logger.Log_zero_started_no_duration _ _ _ _ _ _ hca
      (by intro a ha; fin_cases ha; rfl) r hr
  · intro r hr
    obtain ⟨err, hev⟩ := Conn.BeginTx_event_shape c ctx opts txID now
    rw [hev] at hr
    exact Logger.Log_zero_started_no_duration _ _ _ _ _ _ hca
      (by intro a ha; fin_cases ha <;> rfl) r hr
  · intro r hr
    obtain ⟨err, hev⟩ := stmtClose_event_shape s now
    rw [hev] at hr
    exact Logger.Log_zero_started_no_duration _ _ _ _ _ _ hsa
      (by intro a ha; fin_cases ha) r hr
  · intro hwd hst r hr
    obtain ⟨err, hev⟩ := connClose_event_shape c now
    rw [hev] at hr
    exact Logger.Log_duration_mem _ _ _ _ _ _ _ r hwd hst hr
  · intro hwd hst r hr
    obtain ⟨err, hev⟩ := connect_event_shape co connID entry now
    rw [hev] at hr
    exact Logger.Log_duration_mem _ _ _ _ _ _ _ r hwd hst hr
  · intro hwd hst
    refine ⟨?_, ?_, ?_, ?_, ?_, ?_, ?_⟩
    · intro r hr
      obtain ⟨err, hev⟩ := ping_event_shape c ctx entry now
      rw [hev] at hr
      exact Logger.Log_duration_mem _ _ _ _ _ _ _ r hwd hst hr
    · intro r hr
      obtain ⟨err, hev⟩ := connExec_event_shape c q vargs entry now
      rw [hev] at hr
      exact Logger.Log_duration_mem _ _ _ _ _ _ _ r hwd hst hr
    · intro r hr
      obtain ⟨err, hev⟩ := connExecContext_event_shape c ctx q nargs entry now
      rw [hev] at hr
      exact Logger.Log_duration_mem _ _ _ _ _ _ _ r hwd hst hr
    · intro r hr
      obtain ⟨err, hev⟩ := Conn.Query_event_shape c q vargs entry now
      rw [hev] at hr
      exact Logger.Log_duration_mem _ _ _ _ _ _ _ r hwd hst hr
    · intro r hr
      obtain ⟨err, hev⟩ := connQueryContext_event_shape c ctx q nargs entry now
      rw [hev] at hr
      exact Logger.Log_duration_mem _ _ _ _ _ _ _ r hwd hst hr
    · intro r hr
      obtain ⟨err, hev⟩ := prepare_event_shape c q stmtID entry now
      rw [hev] at hr
      exact Logger.Log_duration_mem _ _ _ _ _ _ _ r hwd hst hr
    · intro r hr
      obtain ⟨err, hev⟩ := prepareContext_event_shape c ctx q stmtID entry now
      rw [hev] at hr
      exact Logger.Log_duration_mem _ _ _ _ _ _ _ r hwd hst hr
  · intro hwd hst
    refine ⟨?_, ?_, ?_, ?_⟩
    · intro r hr
      obtain ⟨err, hev⟩ := Stmt.Exec_event_shape s vargs entry now
      rw [hev] at hr
      exact Logger.Log_duration_mem _ _ _ _ _ _ _ r hwd hst hr
    · intro r hr
      obtain ⟨err, hev⟩ := stmtExecContext_event_shape s ctx nargs entry now
      rw [hev] at hr
      exact Logger.Log_duration_mem _ _ _ _ _ _ _ r hwd hst hr
    · intro r hr
      obtain ⟨err, hev⟩ := stmtQuery_event_shape s vargs entry now
      rw [hev] at hr
      exact Logger.Log_duration_mem _ _ _ _ _ _ _ r hwd hst hr
    · intro r hr
      obtain ⟨err, hev⟩ := stmtQueryContext_event_shape s ctx nargs entry now
      rw [hev] at hr
      exact Logger.Log_duration_mem _ _ _ _ _ _ _ r hwd hst hr

/-- C7 amended witness: the theorem applied to the concrete fixtures. -/
theorem duration_attribute_placement_witness :
    (∀ a ∈ cBase.logger.sinkAttrs, a.isDuration = false) ∧
    (∀ r, (Conn.Begin cBase "t1" 5).event = some r →
      ∀ a ∈ r.attrs, a.isDuration = false) := by
  have hca : ∀ a ∈ cBase.logger.sinkAttrs, a.isDuration = false := by
    intro a ha
    simp [cBase, NewConn, sinkLogger] at ha
  have hsa : ∀ a ∈ sBase.logger.sinkAttrs, a.isDuration = false := by
    intro a ha
    simp [sBase, sinkLogger] at ha
  exact ⟨hca, (duration_attribute_placement coBase cBase sBase ⟨false, false⟩
    ⟨0, false⟩ "c1" "t1" "s1" "q" [] [] 2 5 hca hsa).1⟩

end Sqlog
